import Mathlib

/-!
Shallow embedding of the conversation-memory core of the gpt-clone repository
(`src/lib/mem0.ts`, the `/api/memory` route handlers, and the `trimHistory`
policy of the chat route), together with theorems settling the frozen claims.

Modelling conventions:
* JavaScript strings are Lean `String`s; `String.slice(0, n)` is `jsSliceTo`.
* JavaScript numbers are exact: similarity scores are `ℚ`, importances are `ℤ`
  (they arrive from JSON and are not range-checked), timestamps are `ℕ`.
* `Array.prototype.sort` with a comparator is stable (ECMAScript 2019); the
  descending sort by `score * importance` used in `searchMemories` is
  therefore modelled by the stable insertion sort `rankSort`.
* The document database is passed explicitly: a conversation lookup yields
  `Option Conversation` (`none` when the id does not resolve), and the pool of
  recent messages consulted by `searchMemories` is an input list (given in
  descending recency, as produced by the `createdAt: -1` query).
* Fresh memory ids (`mem_${Date.now()}_...`) and the current time are passed
  in as parameters `freshId` / `now`.
-/

/-- Whitespace class of the JavaScript regular expression `\s`
(ASCII whitespace, NBSP, BOM and the Unicode space separators). -/
def jsWhitespace (c : Char) : Bool :=
  c = ' ' ∨ c = '\t' ∨ c = '\n' ∨ c = '\r' ∨ c = '\x0b' ∨ c = '\x0c' ∨
  c = ' ' ∨ c = ' ' ∨ (' ' ≤ c ∧ c ≤ ' ') ∨
  c = ' ' ∨ c = ' ' ∨ c = ' ' ∨ c = ' ' ∨ c = '　' ∨
  c = '﻿'

/-- Splitting machine for `String.prototype.split(/\s+/)`: `inWS` records
whether the previous character belonged to a whitespace run, `cur` holds the
(reversed) current token.  A leading or trailing whitespace run yields an
empty token, exactly as in JavaScript. -/
def splitWSAux : Bool → List Char → List Char → List (List Char)
  | _, [], cur => [cur.reverse]
  | inWS, c :: cs, cur =>
    if jsWhitespace c then
      if inWS then splitWSAux true cs cur
      else cur.reverse :: splitWSAux true cs []
    else splitWSAux false cs (c :: cur)

/-- `s.split(/\s+/)` of JavaScript.  Note `"".split(/\s+/) = [""]`. -/
def splitWS (s : String) : List String :=
  (splitWSAux false s.data []).map fun l => ⟨l⟩

/-- `s.slice(0, n)` of JavaScript for `n ≥ 0`: the first `n` characters. -/
def jsSliceTo (s : String) (n : ℕ) : String := ⟨s.data.take n⟩

/-- `s.toLowerCase()` of JavaScript, modelled characterwise.  (Lean's own
`String.toLower` is the same map, but its byte-position recursion does not
reduce in the kernel; the characterwise form does.) -/
def jsToLower (s : String) : String := ⟨s.data.map Char.toLower⟩

/-- `s.includes(sub)` of JavaScript: substring containment. -/
def jsIncludes (s sub : String) : Bool :=
  s.data.tails.any fun t => sub.data.isPrefixOf t

/-- `calculateSimilarity` (src/lib/mem0.ts:192-200): fraction of query tokens
that occur among the content tokens, with a denominator floor of 1, clamped
to 1. -/
def calculateSimilarity (query content : String) : ℚ :=
  let queryWords := splitWS (jsToLower query)
  let contentWords := splitWS (jsToLower content)
  let commonWords := queryWords.filter fun w => contentWords.contains w
  let similarity : ℚ := (commonWords.length : ℚ) / ((max queryWords.length 1 : ℕ) : ℚ)
  min similarity 1

/-- The `type` enumeration of `MemoryEntry.metadata` (src/lib/mem0.ts:10). -/
inductive MemoryType
  | user_preference
  | fact
  | context
  | summary
deriving DecidableEq, Repr

/-- Message roles (src/lib/models.ts). -/
inductive Role
  | user
  | assistant
  | system
deriving DecidableEq, Repr

/-- `MemoryEntry` (src/lib/mem0.ts:3-14), with the metadata fields inlined. -/
structure MemoryEntry where
  id : String
  content : String
  conversationId : String
  userId : String
  timestamp : ℕ
  type : MemoryType
  importance : ℤ
deriving DecidableEq, Repr

/-- The conversation record as the memory core sees it: title, rolling
`summary` (a JavaScript string; `""` is falsy, standing for an absent
summary), the ordered `memoryEntries` list and the `updatedAt` timestamp. -/
structure Conversation where
  title : String
  summary : String
  memoryEntries : List MemoryEntry
  updatedAt : ℕ
deriving DecidableEq, Repr

/-- A persisted chat `Message` as consumed by `searchMemories`. -/
structure StoredMessage where
  content : String
  role : Role
  createdAt : ℕ
deriving DecidableEq, Repr

/-- `MemorySearchResult` (src/lib/mem0.ts:16-20), metadata inlined. -/
structure MemorySearchResult where
  content : String
  score : ℚ
  type : MemoryType
  importance : ℤ
  timestamp : ℕ
deriving DecidableEq, Repr

/-- The composite ranking key `score * importance` of `searchMemories`. -/
def rankKey (m : MemorySearchResult) : ℚ := m.score * (m.importance : ℚ)

/-- Insert into a (descending) ranked list, after every element of at least
the same key — the placement a stable sort gives an element arriving later. -/
def insertRanked (a : MemorySearchResult) :
    List MemorySearchResult → List MemorySearchResult
  | [] => [a]
  | b :: l => if rankKey a < rankKey b then b :: insertRanked a l else a :: b :: l

/-- Stable insertion sort by `rankKey`, descending: the model of
`memories.sort((a, b) => b.score * b.metadata.importance - a.score * a.metadata.importance)`. -/
def rankSort : List MemorySearchResult → List MemorySearchResult
  | [] => []
  | a :: l => insertRanked a (rankSort l)

/-- One candidate of `searchMemories`: score it against the query and keep it
when `score >= minScore` (src/lib/mem0.ts:82-115). -/
def scoreEntry (query : String) (minScore : ℚ) (content : String)
    (type : MemoryType) (importance : ℤ) (timestamp : ℕ) :
    Option MemorySearchResult :=
  let score := calculateSimilarity query content
  if minScore ≤ score then
    some { content := content, score := score, type := type,
           importance := importance, timestamp := timestamp }
  else none

/-- The candidate pool of `searchMemories` after the `minScore` filter, in
push order: the summary pseudo-entry (type `summary`, importance 8) first —
only when the conversation exists and its summary is truthy — then the recent
messages in the given (descending-recency) order, typed `user_preference`
importance 7 for user messages and `context` importance 5 otherwise. -/
def candidatePool (conv : Option Conversation) (recent : List StoredMessage)
    (query : String) (minScore : ℚ) : List MemorySearchResult :=
  (match conv with
   | some c =>
     if c.summary ≠ "" then
       (scoreEntry query minScore c.summary MemoryType.summary 8 c.updatedAt).toList
     else []
   | none => []) ++
  recent.filterMap fun m =>
    scoreEntry query minScore m.content
      (if m.role = Role.user then MemoryType.user_preference else MemoryType.context)
      (if m.role = Role.user then 7 else 5) m.createdAt

/-- `searchMemories` (src/lib/mem0.ts:63-121): build the pool, sort it stably
by `score * importance` descending, return the first `limit` results. -/
def searchMemories (conv : Option Conversation) (recent : List StoredMessage)
    (query : String) (limit : ℕ) (minScore : ℚ) : List MemorySearchResult :=
  (rankSort (candidatePool conv recent query minScore)).take limit

/-- `createEnhancedSummary` (src/lib/mem0.ts:174-187). -/
def createEnhancedSummary (existingSummary : String) (memory : MemoryEntry) : String :=
  if memory.type = MemoryType.summary then
    jsSliceTo memory.content 1000
  else if 7 ≤ memory.importance then
    jsSliceTo (existingSummary ++ "\n\nImportant: " ++ memory.content) 1000
  else existingSummary

/-- `updateConversationMemory` (src/lib/mem0.ts:153-169): when the
conversation resolves, rewrite its summary through `createEnhancedSummary`
and append the entry; when it does not, do nothing. -/
def updateConversationMemory (conv : Option Conversation) (memory : MemoryEntry) :
    Option Conversation :=
  match conv with
  | none => none
  | some c =>
    some { c with
           summary := createEnhancedSummary c.summary memory,
           memoryEntries := c.memoryEntries ++ [memory] }

/-- `addMemory` (src/lib/mem0.ts:34-58): build the entry, persist it via
`updateConversationMemory`, and return the generated id regardless. -/
def addMemory (conv : Option Conversation) (userId conversationId : String)
    (freshId : String) (now : ℕ) (content : String) (type : MemoryType)
    (importance : ℤ) : String × Option Conversation :=
  let memoryEntry : MemoryEntry :=
    { id := freshId, content := content, conversationId := conversationId,
      userId := userId, timestamp := now, type := type, importance := importance }
  (freshId, updateConversationMemory conv memoryEntry)

/-- `deleteMemory` (src/lib/mem0.ts:133-148): filter the entry list by id. -/
def deleteMemory (conv : Option Conversation) (memoryId : String) :
    Option Conversation :=
  match conv with
  | none => none
  | some c =>
    some { c with memoryEntries := c.memoryEntries.filter fun e => e.id != memoryId }

/-- Legacy `storeMemory` (src/lib/mem0.ts:275-280): overwrite the summary
with the content truncated to 800 characters. -/
def storeMemory (conv : Option Conversation) (content : String) :
    Option Conversation :=
  match conv with
  | none => none
  | some c => some { c with summary := jsSliceTo content 800 }

/-- The preference keyword list of `containsPreference` (src/lib/mem0.ts:236-239). -/
def preferenceKeywords : List String :=
  ["i like", "i prefer", "i want", "i need", "i love", "i hate",
   "my favorite", "i always", "i never", "i usually", "i typically"]

/-- The fact keyword list of `containsFact` (src/lib/mem0.ts:249-252). -/
def factKeywords : List String :=
  ["remember", "note that", "important", "keep in mind",
   "fact:", "info:", "data:", "statistics"]

/-- `containsPreference` (src/lib/mem0.ts:235-243): case-insensitive
substring containment of any preference keyword. -/
def containsPreference (content : String) : Bool :=
  preferenceKeywords.any fun keyword => jsIncludes (jsToLower content) keyword

/-- `containsFact` (src/lib/mem0.ts:248-256). -/
def containsFact (content : String) : Bool :=
  factKeywords.any fun keyword => jsIncludes (jsToLower content) keyword

/-- A transient chat-turn message (role and content; attachments are not
consulted by any modelled operation). -/
structure ChatMessage where
  role : Role
  content : String
deriving DecidableEq, Repr

/-- The data of one memory write: content, type, importance. -/
abbrev ExtractedEntry := String × MemoryType × ℤ

/-- The single conditional write `extractKeyInfo` performs for a user
message (src/lib/mem0.ts:210-218): one `user_preference` entry of
importance 8, or nothing. -/
def userPrefEntry (m : ChatMessage) : Option ExtractedEntry :=
  if containsPreference m.content then
    some ("User preference: " ++ m.content, MemoryType.user_preference, 8)
  else none

/-- The single conditional write `extractKeyInfo` performs for an assistant
message (src/lib/mem0.ts:221-229): one `fact` entry of importance 6, or
nothing. -/
def factEntry (m : ChatMessage) : Option ExtractedEntry :=
  if containsFact m.content then
    some ("Fact: " ++ m.content, MemoryType.fact, 6)
  else none

/-- The sequence of memory writes `extractKeyInfo` issues for a batch of
turn messages (src/lib/mem0.ts:205-230): user messages first, then
assistant messages, one optional entry each. -/
def extractKeyInfoEntries (messages : List ChatMessage) : List ExtractedEntry :=
  (messages.filter fun m => decide (m.role = Role.user)).filterMap userPrefEntry ++
  (messages.filter fun m => decide (m.role = Role.assistant)).filterMap factEntry

/-- `trimHistory` of the chat route (README.md:68-72): keep the last
`max(6, Math.floor(maxTokens / 500))` messages.  `slice(-n)` for `n > 0` is
dropping all but the last `n` elements. -/
def trimHistory (messages : List ChatMessage) (maxTokens : ℤ) : List ChatMessage :=
  let maxMessages : ℤ := max 6 (Int.fdiv maxTokens 500)
  messages.drop (messages.length - maxMessages.toNat)

/-- Responses of the `/api/memory` route, as far as the claims consult them. -/
inductive ApiResponse
  | unauthorized
  | badRequest
  | success (memoryId : String)
deriving DecidableEq, Repr

/-- The JSON body of `POST /api/memory`; absent fields are `none`.  (`type`
is kept in the enumeration; the runtime performs no check on it either.) -/
structure MemoryPostBody where
  conversationId : Option String
  content : Option String
  type : Option MemoryType
  importance : Option ℤ

/-- JavaScript truthiness of an optional string: present and non-empty. -/
def truthyString : Option String → Bool
  | none => false
  | some s => s != ""

/-- `POST /api/memory` (app/api/memory/route.ts): after the auth and
presence checks, forward `content`, `type` (default `context`) and
`importance` (default 5) verbatim to `addMemory` and answer success with the
returned memory id.  No range check is applied to `importance`. -/
def postMemory (userId : Option String) (body : MemoryPostBody)
    (conv : Option Conversation) (freshId : String) (now : ℕ) :
    ApiResponse × Option Conversation :=
  match userId with
  | none => (ApiResponse.unauthorized, conv)
  | some uid =>
    if truthyString body.conversationId ∧ truthyString body.content then
      match body.conversationId, body.content with
      | some cid, some content =>
        let result := addMemory conv uid cid freshId now content
          (body.type.getD MemoryType.context) (body.importance.getD 5)
        (ApiResponse.success result.1, result.2)
      | _, _ => (ApiResponse.badRequest, conv)
    else (ApiResponse.badRequest, conv)

/-! ### Lemmas about the stable ranking sort -/

theorem mem_insertRanked {x a : MemorySearchResult} :
    ∀ {l : List MemorySearchResult}, x ∈ insertRanked a l ↔ x = a ∨ x ∈ l
  | [] => by simp [insertRanked]
  | b :: l => by
    rw [insertRanked]
    split
    · simp [mem_insertRanked (l := l), or_left_comm]
    · simp

theorem pairwise_insertRanked {a : MemorySearchResult}
    {l : List MemorySearchResult}
    (h : l.Pairwise fun x y => rankKey y ≤ rankKey x) :
    (insertRanked a l).Pairwise fun x y => rankKey y ≤ rankKey x := by
  induction l with
  | nil => simp [insertRanked]
  | cons b l ih =>
    rw [List.pairwise_cons] at h
    rw [insertRanked]
    split
    · next hab =>
      rw [List.pairwise_cons]
      refine ⟨fun x hx => ?_, ih h.2⟩
      rcases mem_insertRanked.mp hx with rfl | hx
      · exact le_of_lt hab
      · exact h.1 x hx
    · next hab =>
      rw [List.pairwise_cons]
      refine ⟨fun x hx => ?_, List.pairwise_cons.mpr h⟩
      rcases List.mem_cons.mp hx with rfl | hx
      · exact le_of_not_lt hab
      · exact le_trans (h.1 x hx) (le_of_not_lt hab)

theorem pairwise_rankSort :
    ∀ l : List MemorySearchResult,
      (rankSort l).Pairwise fun x y => rankKey y ≤ rankKey x
  | [] => by simp [rankSort]
  | a :: l => by
    rw [rankSort]
    exact pairwise_insertRanked (pairwise_rankSort l)

theorem mem_rankSort {x : MemorySearchResult} :
    ∀ {l : List MemorySearchResult}, x ∈ rankSort l ↔ x ∈ l
  | [] => by simp [rankSort]
  | a :: l => by
    rw [rankSort, mem_insertRanked, mem_rankSort (l := l)]
    simp

theorem filter_insertRanked (k : ℚ) (a : MemorySearchResult) :
    ∀ l : List MemorySearchResult,
      (insertRanked a l).filter (fun m => decide (rankKey m = k)) =
        if rankKey a = k then
          a :: l.filter (fun m => decide (rankKey m = k))
        else l.filter (fun m => decide (rankKey m = k))
  | [] => by
    rw [insertRanked]
    split <;> simp_all [List.filter]
  | b :: l => by
    rw [insertRanked]
    split
    · next hab =>
      by_cases hbk : rankKey b = k
      · have hak : ¬ rankKey a = k := fun hak => absurd hab (by rw [hak, hbk]; exact lt_irrefl k)
        simp [List.filter_cons, hbk, hak, filter_insertRanked k a l]
      · by_cases hak : rankKey a = k <;>
          simp [List.filter_cons, hbk, hak, filter_insertRanked k a l]
    · by_cases hak : rankKey a = k <;> simp [List.filter_cons, hak]

theorem filter_rankSort (k : ℚ) :
    ∀ l : List MemorySearchResult,
      (rankSort l).filter (fun m => decide (rankKey m = k)) =
        l.filter (fun m => decide (rankKey m = k))
  | [] => rfl
  | a :: l => by
    rw [rankSort, filter_insertRanked k a (rankSort l), filter_rankSort k l,
      List.filter_cons]
    split <;> simp_all

theorem scoreEntry_eq_some {q c : String} {ms : ℚ} {t : MemoryType} {i : ℤ}
    {ts : ℕ} {x : MemorySearchResult}
    (h : scoreEntry q ms c t i ts = some x) :
    ms ≤ x.score ∧ x.score = calculateSimilarity q c ∧ x.content = c ∧
      x.type = t ∧ x.importance = i := by
  revert h
  rw [scoreEntry]
  split
  · next hle => intro h; cases h; exact ⟨hle, rfl, rfl, rfl, rfl⟩
  · intro h; cases h

theorem mem_candidatePool_minScore {conv : Option Conversation}
    {recent : List StoredMessage} {query : String} {minScore : ℚ}
    {x : MemorySearchResult} (h : x ∈ candidatePool conv recent query minScore) :
    minScore ≤ x.score := by
  rw [candidatePool.eq_def, List.mem_append] at h
  rcases h with h | h
  · revert h
    split
    · split
      · intro h
        rw [Option.mem_toList, Option.mem_def] at h
        exact (scoreEntry_eq_some h).1
      · intro h; simp at h
    · intro h; simp at h
  · rw [List.mem_filterMap] at h
    obtain ⟨m, _, hm⟩ := h
    exact (scoreEntry_eq_some hm).1

/-- Claim C1: for every query, conversation state, limit and minScore, the
sequence returned by `searchMemories` is sorted in non-increasing order of
`score * importance` (`rankKey`); and for every product value `k`, the
returned results with that product form, in order, a prefix of the
candidate-pool elements with that product (summary pseudo-entry first, then
messages in descending recency) — i.e. ties are broken by pool order. -/
theorem searchMemories_sorted_and_stable (conv : Option Conversation)
    (recent : List StoredMessage) (query : String) (limit : ℕ) (minScore : ℚ) :
    (searchMemories conv recent query limit minScore).Pairwise
      (fun a b => rankKey b ≤ rankKey a) ∧
    ∀ k : ℚ,
      (searchMemories conv recent query limit minScore).filter
          (fun m => decide (rankKey m = k)) <+:
        (candidatePool conv recent query minScore).filter
          (fun m => decide (rankKey m = k)) := by
  constructor
  · rw [searchMemories]
    exact (pairwise_rankSort _).sublist (List.take_sublist _ _)
  · intro k
    refine ⟨((rankSort (candidatePool conv recent query minScore)).drop limit).filter
      (fun m => decide (rankKey m = k)), ?_⟩
    rw [searchMemories, ← List.filter_append, List.take_append_drop,
      filter_rankSort]

/-- Claim C2: `searchMemories` returns at most `limit` results, and every
returned result's score is at least `minScore`. -/
theorem searchMemories_le_limit_and_minScore (conv : Option Conversation)
    (recent : List StoredMessage) (query : String) (limit : ℕ) (minScore : ℚ) :
    (searchMemories conv recent query limit minScore).length ≤ limit ∧
    ∀ m ∈ searchMemories conv recent query limit minScore, minScore ≤ m.score := by
  constructor
  · rw [searchMemories]
    exact List.length_take_le _ _
  · intro m hm
    rw [searchMemories] at hm
    exact mem_candidatePool_minScore (mem_rankSort.mp (List.take_subset _ _ hm))

/-! ### Trimming policy (Claim C4) -/

/-- A ten-message history, used for the concrete instance of claim C4. -/
def tenMessages : List ChatMessage :=
  [⟨Role.user, "m1"⟩, ⟨Role.assistant, "m2"⟩, ⟨Role.user, "m3"⟩,
   ⟨Role.assistant, "m4"⟩, ⟨Role.user, "m5"⟩, ⟨Role.assistant, "m6"⟩,
   ⟨Role.user, "m7"⟩, ⟨Role.assistant, "m8"⟩, ⟨Role.user, "m9"⟩,
   ⟨Role.assistant, "m10"⟩]

/-- Claim C4: `trimHistory` keeps exactly the last
`max(6, floor(maxTokens / 500))` entries — the whole list when it is shorter
— preserving relative order (the output is a suffix of the input of the
stated length); and for `maxTokens = 3000` and ten input messages the output
is exactly the last six. -/
theorem trimHistory_keeps_last_maxMessages :
    (∀ (messages : List ChatMessage) (maxTokens : ℤ),
      trimHistory messages maxTokens <:+ messages ∧
      (trimHistory messages maxTokens).length =
        min (max 6 (Int.fdiv maxTokens 500)).toNat messages.length) ∧
    trimHistory tenMessages 3000 =
      [⟨Role.user, "m5"⟩, ⟨Role.assistant, "m6"⟩, ⟨Role.user, "m7"⟩,
       ⟨Role.assistant, "m8"⟩, ⟨Role.user, "m9"⟩, ⟨Role.assistant, "m10"⟩] := by
  refine ⟨fun messages maxTokens => ⟨?_, ?_⟩, by decide⟩
  · simp only [trimHistory]
    exact List.drop_suffix _ _
  · simp only [trimHistory, List.length_drop]
    omega

/-! ### Summary update policy (Claims C5, C6) -/

theorem jsSliceTo_length_le (s : String) (n : ℕ) : (jsSliceTo s n).length ≤ n := by
  show (s.data.take n).length ≤ n
  exact List.length_take_le n s.data

theorem jsSliceTo_data_isPrefix (s : String) (n : ℕ) :
    (jsSliceTo s n).data <+: s.data :=
  ⟨s.data.drop n, List.take_append_drop n s.data⟩

/-- Claim C5 (theorem): `createEnhancedSummary` implements exactly the
three-case policy of the spec — a `summary`-typed entry replaces the summary
by the entry content truncated to its first 1000 characters, discarding the
old summary; a non-`summary` entry of importance at least 7 appends
`"\n\nImportant: " + content` and keeps the first 1000 characters; any other
entry leaves the summary unchanged. -/
theorem createEnhancedSummary_policy (s : String) (e : MemoryEntry) :
    (e.type = MemoryType.summary →
      (createEnhancedSummary s e).data = e.content.data.take 1000) ∧
    (e.type ≠ MemoryType.summary → 7 ≤ e.importance →
      (createEnhancedSummary s e).data =
        (s ++ "\n\nImportant: " ++ e.content).data.take 1000) ∧
    (e.type ≠ MemoryType.summary → e.importance < 7 →
      createEnhancedSummary s e = s) := by
  refine ⟨fun h1 => ?_, fun h1 h2 => ?_, fun h1 h2 => ?_⟩
  · simp [createEnhancedSummary, h1, jsSliceTo]
  · simp [createEnhancedSummary, h1, h2, jsSliceTo]
  · simp [createEnhancedSummary, h1, not_le.mpr h2]

/-- A `summary`-typed entry (importance 5), for witnesses. -/
def entrySummaryEx : MemoryEntry :=
  ⟨"m1", "fresh summary", "c1", "u1", 0, MemoryType.summary, 5⟩

/-- A low-importance `fact` entry (importance 3), for witnesses. -/
def entryLowEx : MemoryEntry :=
  ⟨"m2", "minor detail", "c1", "u1", 0, MemoryType.fact, 3⟩

/-- A high-importance `fact` entry (importance 9), for witnesses. -/
def entryHighEx : MemoryEntry :=
  ⟨"m3", "user loves hiking", "c1", "u1", 0, MemoryType.fact, 9⟩

/-- Claim C5 (witness): the three cases of the policy at concrete inputs. -/
theorem createEnhancedSummary_policy_witness :
    (createEnhancedSummary "old" entrySummaryEx).data =
      entrySummaryEx.content.data.take 1000 ∧
    (createEnhancedSummary "old" entryHighEx).data =
      ("old" ++ "\n\nImportant: " ++ entryHighEx.content).data.take 1000 ∧
    createEnhancedSummary "old" entryLowEx = "old" :=
  ⟨(createEnhancedSummary_policy "old" entrySummaryEx).1 rfl,
   (createEnhancedSummary_policy "old" entryHighEx).2.1 (by decide) (by decide),
   (createEnhancedSummary_policy "old" entryLowEx).2.2 (by decide) (by decide)⟩

/-- The 1000-character summary-cap invariant on an optional conversation
record. -/
def summaryCapOk : Option Conversation → Prop
  | none => True
  | some c => c.summary.length ≤ 1000

theorem createEnhancedSummary_length_le (s : String) (e : MemoryEntry)
    (h : s.length ≤ 1000) : (createEnhancedSummary s e).length ≤ 1000 := by
  rw [createEnhancedSummary]
  split
  · exact jsSliceTo_length_le _ _
  · split
    · exact jsSliceTo_length_le _ _
    · exact h

theorem summaryCapOk_update {conv : Option Conversation} (e : MemoryEntry)
    (h : summaryCapOk conv) : summaryCapOk (updateConversationMemory conv e) := by
  cases conv with
  | none => exact trivial
  | some c => exact createEnhancedSummary_length_le c.summary e h

/-- Claim C6 (theorem): starting from a summary within the 1000-character
cap, every summary-rewriting operation — `updateConversationMemory` (hence
`addMemory`) and the legacy `storeMemory` — keeps the cap, and truncation
only ever drops characters from the tail: the new summary is a prefix of the
untruncated candidate of its branch (or the summary is left unchanged);
`storeMemory` writes exactly the 800-character prefix of its content. -/
theorem summary_cap_preserved (conv : Option Conversation)
    (userId conversationId freshId : String) (now : ℕ) (content : String)
    (type : MemoryType) (importance : ℤ) (e : MemoryEntry) (s : String)
    (h : summaryCapOk conv) (hs : s.length ≤ 1000) :
    summaryCapOk (updateConversationMemory conv e) ∧
    summaryCapOk
      ((addMemory conv userId conversationId freshId now content type importance).2) ∧
    summaryCapOk (storeMemory conv content) ∧
    (createEnhancedSummary s e).length ≤ 1000 ∧
    ((createEnhancedSummary s e).data <+: e.content.data ∨
     (createEnhancedSummary s e).data <+: (s ++ "\n\nImportant: " ++ e.content).data ∨
     createEnhancedSummary s e = s) ∧
    ∀ c : Conversation,
      storeMemory (some c) content =
        some ⟨c.title, jsSliceTo content 800, c.memoryEntries, c.updatedAt⟩ ∧
      (jsSliceTo content 800).data <+: content.data ∧
      (jsSliceTo content 800).length ≤ 1000 := by
  refine ⟨summaryCapOk_update e h, summaryCapOk_update _ h, ?_, ?_, ?_, fun c => ⟨rfl, jsSliceTo_data_isPrefix _ _, le_trans (jsSliceTo_length_le _ _) (by norm_num)⟩⟩
  · cases conv with
    | none => exact trivial
    | some c => exact le_trans (jsSliceTo_length_le _ _) (by norm_num)
  · exact createEnhancedSummary_length_le s e hs
  · rw [createEnhancedSummary]
    split
    · exact Or.inl (jsSliceTo_data_isPrefix _ _)
    · split
      · exact Or.inr (Or.inl (jsSliceTo_data_isPrefix _ _))
      · exact Or.inr (Or.inr rfl)

/-- An example conversation within the cap, for witnesses. -/
def convEx : Conversation :=
  ⟨"trip planning", "User likes Python", [], 7⟩

/-- Claim C6 (witness): the preservation theorem applied to `convEx`, the
high-importance entry `entryHighEx` and a concrete summary. -/
theorem summary_cap_preserved_witness :
    summaryCapOk (updateConversationMemory (some convEx) entryHighEx) ∧
    summaryCapOk (storeMemory (some convEx) "note") ∧
    (createEnhancedSummary "old" entryHighEx).length ≤ 1000 :=
  ⟨(summary_cap_preserved (some convEx) "u1" "c1" "m9" 0 "note"
      MemoryType.context 5 entryHighEx "old"
      (by show convEx.summary.length ≤ 1000; decide) (by decide)).1,
   (summary_cap_preserved (some convEx) "u1" "c1" "m9" 0 "note"
      MemoryType.context 5 entryHighEx "old"
      (by show convEx.summary.length ≤ 1000; decide) (by decide)).2.2.1,
   (summary_cap_preserved (some convEx) "u1" "c1" "m9" 0 "note"
      MemoryType.context 5 entryHighEx "old"
      (by show convEx.summary.length ≤ 1000; decide) (by decide)).2.2.2.1⟩

/-! ### Empty-query scoring (Claim C3) -/

theorem calculateSimilarity_empty_query (content : String)
    (h : "" ∉ splitWS (jsToLower content)) : calculateSimilarity "" content = 0 := by
  simp only [calculateSimilarity]
  rw [show splitWS (jsToLower "") = [""] from rfl]
  simp [List.filter, h]

theorem scoreEntry_eq_none {q c : String} {ms : ℚ} {t : MemoryType} {i : ℤ} {ts : ℕ}
    (h0 : calculateSimilarity q c = 0) (hpos : 0 < ms) :
    scoreEntry q ms c t i ts = none := by
  simp only [scoreEntry, h0]
  rw [if_neg (not_le.mpr hpos)]

theorem searchMemories_empty_query (conv : Option Conversation)
    (recent : List StoredMessage) (limit : ℕ) (minScore : ℚ)
    (hpos : 0 < minScore)
    (hsum : ∀ c : Conversation, conv = some c → "" ∉ splitWS (jsToLower c.summary))
    (hmsg : ∀ m ∈ recent, "" ∉ splitWS (jsToLower m.content)) :
    searchMemories conv recent "" limit minScore = [] := by
  have hpool : candidatePool conv recent "" minScore = [] := by
    rw [candidatePool.eq_def]
    have hright : (recent.filterMap fun m =>
        scoreEntry "" minScore m.content
          (if m.role = Role.user then MemoryType.user_preference else MemoryType.context)
          (if m.role = Role.user then 7 else 5) m.createdAt) = [] :=
      List.filterMap_eq_nil_iff.mpr fun m hm =>
        scoreEntry_eq_none (calculateSimilarity_empty_query _ (hmsg m hm)) hpos
    cases conv with
    | none => simpa using hright
    | some c =>
      rw [hright]
      simp only [List.append_nil]
      split
      · rw [scoreEntry_eq_none (calculateSimilarity_empty_query _ (hsum c rfl)) hpos]
        rfl
      · rfl
  rw [searchMemories, hpool]
  simp [rankSort]

/-- Claim C3 (counterexample): the scorer does not return 0 on every content
for the empty query.  JavaScript's `"".split(/\s+/)` is `[""]`, and a content
with leading (or trailing) whitespace also tokenizes with an empty token, so
`score("", " cats") = 1`; consequently retrieval with the empty query and
the positive `minScore = 1` does return the stored summary `" cats"`. -/
theorem empty_query_score_counterexample :
    calculateSimilarity "" " cats" = 1 ∧
    searchMemories (some ⟨"t", " cats", [], 5⟩) [] "" 5 1 =
      [⟨" cats", 1, MemoryType.summary, 8, 5⟩] := by
  have h1 : calculateSimilarity "" " cats" = 1 := by
    simp only [calculateSimilarity]
    rw [show ((splitWS (jsToLower "")).filter fun w =>
      (splitWS (jsToLower " cats")).contains w).length = 1 from rfl]
    rw [show max (splitWS (jsToLower "")).length 1 = 1 from rfl]
    norm_num
  refine ⟨h1, ?_⟩
  have hpool : candidatePool (some ⟨"t", " cats", [], 5⟩) [] "" 1 =
      [⟨" cats", 1, MemoryType.summary, 8, 5⟩] := by
    rw [candidatePool.eq_def]
    simp only [List.filterMap_nil, List.append_nil]
    rw [if_pos (by decide)]
    simp [scoreEntry, h1]
  rw [searchMemories, hpool]
  rfl

/-- Claim C3 (amended theorem): the scorer returns 0 on the empty query for
every content whose lower-cased whitespace-tokenization contains no empty
token (equivalently: content that is non-empty and neither starts nor ends
with whitespace); and retrieval with an empty query and a positive
`minScore` returns no results provided the stored summary and all recent
message contents tokenize without an empty token. -/
theorem empty_query_score_amended :
    (∀ content : String, "" ∉ splitWS (jsToLower content) →
      calculateSimilarity "" content = 0) ∧
    (∀ (conv : Option Conversation) (recent : List StoredMessage) (limit : ℕ)
      (minScore : ℚ), 0 < minScore →
      (∀ c : Conversation, conv = some c → "" ∉ splitWS (jsToLower c.summary)) →
      (∀ m ∈ recent, "" ∉ splitWS (jsToLower m.content)) →
      searchMemories conv recent "" limit minScore = []) :=
  ⟨calculateSimilarity_empty_query, searchMemories_empty_query⟩

/-- Claim C3 (witness for the amended theorem): concrete instances. -/
theorem empty_query_score_amended_witness :
    calculateSimilarity "" "cats" = 0 ∧
    searchMemories (some convEx) [⟨"hello there", Role.user, 3⟩] "" 5 1 = [] :=
  ⟨empty_query_score_amended.1 "cats" (by decide),
   empty_query_score_amended.2 (some convEx) [⟨"hello there", Role.user, 3⟩] 5 1
     one_pos
     (by intro c hc; injection hc with h; subst h; decide)
     (by decide)⟩

/-! ### Memory extraction (Claim C8) -/

theorem filterMap_userPrefEntry_filter (l : List ChatMessage) :
    ((l.filterMap userPrefEntry).filter
        fun t => decide (t.2.1 = MemoryType.user_preference)) =
      (l.filter fun m => containsPreference m.content).map
        fun m => ("User preference: " ++ m.content, MemoryType.user_preference, (8:ℤ)) := by
  induction l with
  | nil => rfl
  | cons m l ih =>
    rw [List.filterMap_cons, List.filter_cons]
    by_cases hm : containsPreference m.content = true
    · simp [userPrefEntry, hm, List.filter_cons, ih]
    · simp only [Bool.not_eq_true] at hm
      simp [userPrefEntry, hm, ih]

theorem filterMap_factEntry_filter (l : List ChatMessage) :
    ((l.filterMap factEntry).filter
        fun t => decide (t.2.1 = MemoryType.user_preference)) = [] := by
  induction l with
  | nil => rfl
  | cons m l ih =>
    rw [List.filterMap_cons]
    by_cases hm : containsFact m.content = true
    · simp [factEntry, hm, List.filter_cons, ih]
    · simp only [Bool.not_eq_true] at hm
      simp [factEntry, hm, ih]

/-- Claim C8: among the entries `extractKeyInfo` creates, those of type
`user_preference` are exactly one per user message whose content matches a
preference keyword — with importance 8 and content
`"User preference: " + original` — in message order; and per message, a
match yields exactly one entry (even when several keywords match, since
`containsPreference` only tests whether some keyword occurs) while a
non-match yields none. -/
theorem extractKeyInfo_user_preference_entries (messages : List ChatMessage) :
    ((extractKeyInfoEntries messages).filter
        fun t => decide (t.2.1 = MemoryType.user_preference)) =
      ((messages.filter fun m => decide (m.role = Role.user)).filter
        fun m => containsPreference m.content).map
        (fun m =>
          ("User preference: " ++ m.content, MemoryType.user_preference, (8:ℤ))) ∧
    ∀ m : ChatMessage,
      (containsPreference m.content = true →
        userPrefEntry m =
          some ("User preference: " ++ m.content, MemoryType.user_preference, 8)) ∧
      (containsPreference m.content = false → userPrefEntry m = none) := by
  refine ⟨?_, fun m => ⟨fun h => by simp [userPrefEntry, h], fun h => by simp [userPrefEntry, h]⟩⟩
  rw [extractKeyInfoEntries, List.filter_append, filterMap_userPrefEntry_filter,
    filterMap_factEntry_filter, List.append_nil]

/-- Claim C8 (witness): the single-keyword message of the spec example, a
message matching two keywords (still exactly one entry), and a no-keyword
message (no entry). -/
theorem extractKeyInfo_user_preference_entries_witness :
    userPrefEntry ⟨Role.user, "I prefer dark mode"⟩ =
      some ("User preference: I prefer dark mode", MemoryType.user_preference, 8) ∧
    userPrefEntry ⟨Role.user, "I like tea and I love coffee"⟩ =
      some ("User preference: I like tea and I love coffee",
            MemoryType.user_preference, 8) ∧
    userPrefEntry ⟨Role.user, "the weather is nice"⟩ = none :=
  ⟨((extractKeyInfo_user_preference_entries []).2
      ⟨Role.user, "I prefer dark mode"⟩).1 (by decide),
   ((extractKeyInfo_user_preference_entries []).2
      ⟨Role.user, "I like tea and I love coffee"⟩).1 (by decide),
   ((extractKeyInfo_user_preference_entries []).2
      ⟨Role.user, "the weather is nice"⟩).2 (by decide)⟩

/-! ### Deletion of an absent memory id (Claim C9) -/

/-- Claim C9: deleting a memory id that occurs in none of the conversation's
entries is a complete no-op: the conversation record — entry list, summary
and all other fields — is returned unchanged. -/
theorem deleteMemory_absent_id (c : Conversation) (memoryId : String)
    (h : memoryId ∉ c.memoryEntries.map fun e => e.id) :
    deleteMemory (some c) memoryId = some c := by
  have hall : ∀ e ∈ c.memoryEntries, (e.id != memoryId) = true := fun e he =>
    bne_iff_ne.mpr fun heq =>
      h (heq ▸ List.mem_map_of_mem (fun e => e.id) he)
  show some { c with memoryEntries := c.memoryEntries.filter fun e => e.id != memoryId } = some c
  rw [List.filter_eq_self.mpr hall]

/-- A conversation with two memory entries, for the C9 witness. -/
def convDel : Conversation :=
  ⟨"t", "s",
   [⟨"a1", "x", "c1", "u1", 0, MemoryType.fact, 3⟩,
    ⟨"a2", "y", "c1", "u1", 1, MemoryType.context, 5⟩], 2⟩

/-- Claim C9 (witness): deleting the absent id `"zzz"` from `convDel`. -/
theorem deleteMemory_absent_id_witness :
    deleteMemory (some convDel) "zzz" = some convDel :=
  deleteMemory_absent_id convDel "zzz" (by decide)

/-! ### Writes against a missing conversation (Claims C7, C10) -/

/-- Claim C7 (code evaluated at the failing input): `POST /api/memory` with a
request-supplied `importance` of 42 creates and persists a `MemoryEntry`
with importance 42 — outside the documented 1–10 scale — and reports
success; no range validation exists on the route or in `addMemory`. -/
theorem postMemory_unvalidated_importance :
    postMemory (some "u1") ⟨some "c1", some "hello", none, some 42⟩
      (some ⟨"t", "", [], 0⟩) "mem_1" 0 =
      (ApiResponse.success "mem_1",
       some ⟨"t", "\n\nImportant: hello",
             [⟨"mem_1", "hello", "c1", "u1", 0, MemoryType.context, 42⟩], 0⟩) ∧
    ¬ (1 ≤ (42:ℤ) ∧ (42:ℤ) ≤ 10) := by
  constructor
  · decide
  · decide

/-- Claim C10: when the conversation id does not resolve, `addMemory`
persists nothing (the state stays `none`: no entry is appended, no summary
is modified) yet still returns the freshly generated memory id, and
`POST /api/memory` consequently reports success with that id. -/
theorem addMemory_missing_conversation (userId conversationId freshId : String)
    (now : ℕ) (content : String) (type : MemoryType) (importance : ℤ)
    (hcid : conversationId ≠ "") (hcontent : content ≠ "") :
    addMemory none userId conversationId freshId now content type importance =
      (freshId, none) ∧
    postMemory (some userId)
      ⟨some conversationId, some content, some type, some importance⟩
      none freshId now = (ApiResponse.success freshId, none) := by
  refine ⟨rfl, ?_⟩
  rw [postMemory]
  rw [if_pos ⟨bne_iff_ne.mpr hcid, bne_iff_ne.mpr hcontent⟩]
  rfl

/-- Claim C10 (witness): a concrete dropped write that reports success. -/
theorem addMemory_missing_conversation_witness :
    addMemory none "u1" "c404" "mem_9" 7 "remember this" MemoryType.context 5 =
      ("mem_9", none) ∧
    postMemory (some "u1")
      ⟨some "c404", some "remember this", some MemoryType.context, some 5⟩
      none "mem_9" 7 = (ApiResponse.success "mem_9", none) :=
  addMemory_missing_conversation "u1" "c404" "mem_9" 7 "remember this"
    MemoryType.context 5 (by decide) (by decide)
